import Mathlib

/-
  Verification development for the ccheavy research orchestration system
  (src/ccheavy.py, src/main.py).

  Strings are modelled as lists of characters (type Str below).  Python
  functions are translated into Lean definitions; the external generation
  capability (the cursor-agent process), Python json.loads, and the wall
  clock are modelled as oracles passed in as parameters.  The comments on
  each definition name the source lines it embeds.
-/

set_option maxRecDepth 4000

abbrev Str := List Char

/-- Whitespace recognised by the default str.strip of Python (ASCII part). -/
def pyIsSpace (c : Char) : Bool :=
  c = ' ' || c = '\t' || c = '\n' || c = '\x0d' || c = '\x0b' || c = '\x0c'

/-- Model of str.strip with no arguments: remove leading and trailing whitespace. -/
def pyStrip (s : Str) : Str :=
  ((s.dropWhile pyIsSpace).reverse.dropWhile pyIsSpace).reverse

/-- Truth of an occurrence of pattern pat at index i of s. -/
def occursAtB (pat s : Str) (i : Nat) : Bool :=
  pat.isPrefixOf (s.drop i)

/-- Index of the first occurrence of pat in s, if any. -/
def findOcc (pat : Str) : Str → Option Nat
  | [] => if pat.isPrefixOf [] then some 0 else none
  | c :: t => if pat.isPrefixOf (c :: t) then some 0 else (findOcc pat t).map (· + 1)

/-- Decidable substring test, used to state counterexamples. -/
def containsTok (s pat : Str) : Bool :=
  (findOcc pat s).isSome

/-- Model of CCHeavy.extract_block (src/ccheavy.py lines 431-435).  The Python
    code searches re.escape(start_tag) + lazy group + re.escape(end_tag) with
    re.DOTALL and returns the stripped group, or the empty string on no match.
    Because re.escape makes the tags literal, re.search returns the leftmost
    match and the lazy group stops at the earliest possible end tag, the match
    begins at the first occurrence of start_tag (an occurrence of end_tag after
    a later start_tag occurrence is also after the first one) and the group
    ends at the first occurrence of end_tag at or beyond the end of that
    start_tag occurrence.  DOTALL makes the group span line boundaries, so the
    model needs no line structure. -/
def extract_block (content start_tag end_tag : Str) : Str :=
  match findOcc start_tag content with
  | none => []
  | some i =>
    let rest := content.drop (i + start_tag.length)
    match findOcc end_tag rest with
    | none => []
    | some j => pyStrip (rest.take j)

-- Basic lemmas about occurrences and findOcc.

lemma occursAtB_zero (pat s : Str) : occursAtB pat s 0 = pat.isPrefixOf s := by
  simp [occursAtB]

lemma occursAtB_succ_cons (pat : Str) (c : Char) (t : Str) (i : Nat) :
    occursAtB pat (c :: t) (i + 1) = occursAtB pat t i := by
  simp [occursAtB]

lemma occursAtB_nil (pat : Str) (i : Nat) :
    occursAtB pat [] i = pat.isPrefixOf [] := by
  simp [occursAtB]

lemma isPrefixOf_nil_iff (pat : Str) : pat.isPrefixOf ([] : Str) = true ↔ pat = [] := by
  cases pat with
  | nil => simp [List.isPrefixOf]
  | cons c t => simp [List.isPrefixOf]

lemma findOcc_eq_none_iff (pat s : Str) :
    findOcc pat s = none ↔ ∀ i, occursAtB pat s i = false := by
  induction s with
  | nil =>
    by_cases h : pat.isPrefixOf ([] : Str) = true
    · simp [findOcc, h, occursAtB_nil]
    · simp only [Bool.not_eq_true] at h
      simp [findOcc, h, occursAtB_nil]
  | cons c t ih =>
    by_cases h : pat.isPrefixOf (c :: t) = true
    · constructor
      · intro hn; simp [findOcc, h] at hn
      · intro hall
        have h0 := hall 0
        rw [occursAtB_zero] at h0
        rw [h] at h0; exact absurd h0 (by simp)
    · simp only [Bool.not_eq_true] at h
      constructor
      · intro hn i
        simp only [findOcc, h] at hn
        rw [if_neg (show ¬(false = true) by simp)] at hn
        have ht : findOcc pat t = none := by
          cases hf : findOcc pat t with
          | none => rfl
          | some m => rw [hf] at hn; simp at hn
        cases i with
        | zero => rw [occursAtB_zero, h]
        | succ i => rw [occursAtB_succ_cons]; exact (ih.mp ht) i
      · intro hall
        have ht : findOcc pat t = none := by
          apply ih.mpr
          intro i
          have := hall (i + 1)
          rwa [occursAtB_succ_cons] at this
        simp [findOcc, h, ht]

lemma findOcc_eq_some_iff (pat : Str) :
    ∀ (s : Str) (n : Nat), findOcc pat s = some n ↔
      (occursAtB pat s n = true ∧ ∀ k, k < n → occursAtB pat s k = false) := by
  intro s
  induction s with
  | nil =>
    intro n
    by_cases h : pat.isPrefixOf ([] : Str) = true
    · constructor
      · intro hs
        simp only [findOcc, if_pos h] at hs
        cases hs
        exact ⟨by rw [occursAtB_nil]; exact h, by intro k hk; omega⟩
      · intro ⟨h1, h2⟩
        have : n = 0 := by
          by_contra hne
          have := h2 0 (by omega)
          rw [occursAtB_nil, h] at this
          exact absurd this (by simp)
        subst this
        simp [findOcc, h]
    · simp only [Bool.not_eq_true] at h
      constructor
      · intro hs; simp [findOcc, h] at hs
      · intro ⟨h1, _⟩
        rw [occursAtB_nil, h] at h1
        exact absurd h1 (by simp)
  | cons c t ih =>
    intro n
    by_cases h : pat.isPrefixOf (c :: t) = true
    · constructor
      · intro hs
        simp only [findOcc, if_pos h] at hs
        cases hs
        exact ⟨by rw [occursAtB_zero]; exact h, by intro k hk; omega⟩
      · intro ⟨h1, h2⟩
        have : n = 0 := by
          by_contra hne
          have := h2 0 (by omega)
          rw [occursAtB_zero, h] at this
          exact absurd this (by simp)
        subst this
        simp [findOcc, h]
    · simp only [Bool.not_eq_true] at h
      constructor
      · intro hs
        simp only [findOcc, h] at hs
        rw [if_neg (show ¬(false = true) by simp)] at hs
        cases hf : findOcc pat t with
        | none => rw [hf] at hs; simp at hs
        | some m =>
          rw [hf] at hs
          simp only [Option.map_some', Option.some.injEq] at hs
          subst hs
          have hm := (ih m).mp hf
          constructor
          · rw [occursAtB_succ_cons]; exact hm.1
          · intro k hk
            cases k with
            | zero => rw [occursAtB_zero, h]
            | succ k => rw [occursAtB_succ_cons]; exact hm.2 k (by omega)
      · intro ⟨h1, h2⟩
        cases n with
        | zero =>
          rw [occursAtB_zero, h] at h1
          exact absurd h1 (by simp)
        | succ m =>
          rw [occursAtB_succ_cons] at h1
          have hm : findOcc pat t = some m := by
            apply (ih m).mpr
            refine ⟨h1, ?_⟩
            intro k hk
            have := h2 (k + 1) (by omega)
            rwa [occursAtB_succ_cons] at this
          simp [findOcc, h, hm]

lemma occursAtB_drop (pat s : Str) (m j : Nat) :
    occursAtB pat (s.drop m) j = occursAtB pat s (m + j) := by
  simp [occursAtB, List.drop_drop]

lemma occursAtB_true_of_high (pat s : Str) (i : Nat)
    (h : occursAtB pat s i = true) (hgt : s.length < i) :
    pat = [] ∧ occursAtB pat s s.length = true := by
  unfold occursAtB at h
  rw [List.drop_eq_nil_of_le (by omega)] at h
  have hp : pat = [] := (isPrefixOf_nil_iff pat).mp h
  subst hp
  constructor
  · rfl
  · unfold occursAtB
    rw [List.drop_eq_nil_of_le (by omega)]
    rfl

lemma occursAtB_exists_le (pat s : Str) (i : Nat) (h : occursAtB pat s i = true) :
    ∃ i2, i2 ≤ s.length ∧ occursAtB pat s i2 = true := by
  by_cases hle : i ≤ s.length
  · exact ⟨i, hle, h⟩
  · have := occursAtB_true_of_high pat s i h (by omega)
    exact ⟨s.length, le_refl _, this.2⟩

lemma occursAtB_length_le (pat s : Str) (i : Nat)
    (h : occursAtB pat s i = true) (hne : pat ≠ []) :
    i + pat.length ≤ s.length := by
  unfold occursAtB at h
  rw [List.isPrefixOf_iff_prefix] at h
  have hlen := h.length_le
  rw [List.length_drop] at hlen
  by_cases hle : i ≤ s.length
  · omega
  · exfalso
    have hnil : s.drop i = [] := List.drop_eq_nil_of_le (by omega)
    rw [hnil] at h
    exact hne (List.prefix_nil.mp h)

-- Lemmas about pyStrip.

lemma dropWhile_dropWhile_self (p : Char → Bool) (l : Str) :
    (l.dropWhile p).dropWhile p = l.dropWhile p := by
  induction l with
  | nil => simp
  | cons a t ih =>
    by_cases h : p a = true
    · simp [List.dropWhile_cons, h, ih]
    · simp only [Bool.not_eq_true] at h
      simp [List.dropWhile_cons, h]

lemma head_false_of_dropWhile_self (p : Char → Bool) (a : Char) (t : Str)
    (h : (a :: t).dropWhile p = a :: t) : p a = false := by
  by_cases hp : p a = true
  · exfalso
    rw [List.dropWhile_cons, if_pos hp] at h
    have hle : (t.dropWhile p).length ≤ t.length :=
      (List.dropWhile_suffix (l := t) p).length_le
    have heq : (t.dropWhile p).length = (a :: t).length := by rw [h]
    simp at heq
    omega
  · simpa using hp

lemma dropWhile_pyStrip (p : Char → Bool) (l : Str) :
    (((l.dropWhile p).reverse.dropWhile p).reverse).dropWhile p
      = ((l.dropWhile p).reverse.dropWhile p).reverse := by
  set A := l.dropWhile p with hA
  set C := A.reverse.dropWhile p with hC
  have hCsuf : C <:+ A.reverse := List.dropWhile_suffix p
  have hCpre : C.reverse <+: A := by
    have := List.reverse_prefix.mpr hCsuf
    rwa [List.reverse_reverse] at this
  cases hcr : C.reverse with
  | nil => simp [hcr]
  | cons b u =>
    rw [hcr] at hCpre
    obtain ⟨tl, htl⟩ := hCpre
    have hAeq : A = b :: (u ++ tl) := by rw [← htl]; simp
    have hdA : A.dropWhile p = A := dropWhile_dropWhile_self p l
    have hb : p b = false := by
      apply head_false_of_dropWhile_self p b (u ++ tl)
      rw [← hAeq]; exact hdA
    rw [List.dropWhile_cons, hb]
    simp

lemma pyStrip_idem (l : Str) : pyStrip (pyStrip l) = pyStrip l := by
  unfold pyStrip
  have h1 : (((l.dropWhile pyIsSpace).reverse.dropWhile pyIsSpace).reverse).dropWhile pyIsSpace
      = ((l.dropWhile pyIsSpace).reverse.dropWhile pyIsSpace).reverse :=
    dropWhile_pyStrip pyIsSpace l
  rw [h1, List.reverse_reverse, dropWhile_dropWhile_self]

lemma pyStrip_nil : pyStrip ([] : Str) = [] := rfl

lemma extract_block_strip_fixed (content s e : Str) :
    pyStrip (extract_block content s e) = extract_block content s e := by
  unfold extract_block
  cases findOcc s content with
  | none => exact pyStrip_nil
  | some i =>
    simp only
    cases findOcc e (content.drop (i + s.length)) with
    | none => exact pyStrip_nil
    | some j => exact pyStrip_idem _

-- Unfolding equations for extract_block.

lemma extract_block_eq_of_none (content s e : Str) (h : findOcc s content = none) :
    extract_block content s e = [] := by
  unfold extract_block
  rw [h]

lemma extract_block_eq_of_some (content s e : Str) (i : Nat)
    (h : findOcc s content = some i) :
    extract_block content s e =
      (match findOcc e (content.drop (i + s.length)) with
       | none => []
       | some j => pyStrip ((content.drop (i + s.length)).take j)) := by
  unfold extract_block
  rw [h]

/-- C6: extract_block returns the first substring strictly between the first
    occurrence of the start tag and the first occurrence of the end tag at or
    after the end of that start-tag occurrence, trimmed of surrounding
    whitespace; it returns the empty string when the start tag is absent or
    when no end-tag occurrence follows a start-tag occurrence.  Tags are
    matched as literal character sequences (the Python code escapes them with
    re.escape) and the span may cross line boundaries (re.DOTALL); the model
    has no line structure or pattern language, so both robustness points are
    inherent in the statement. -/
theorem c6_extract_block_spec (content s e : Str) :
    ((∀ i, i ≤ content.length → occursAtB s content i = false) →
        extract_block content s e = [])
    ∧ (∀ i, occursAtB s content i = true →
        (∀ k, k < i → occursAtB s content k = false) →
        ((∀ j, j ≤ content.length → i + s.length ≤ j → occursAtB e content j = false) →
            extract_block content s e = [])
        ∧ (∀ j, i + s.length ≤ j → occursAtB e content j = true →
            (∀ k, k < j → i + s.length ≤ k → occursAtB e content k = false) →
            extract_block content s e =
              pyStrip (List.take (j - (i + s.length)) (List.drop (i + s.length) content)))) := by
  constructor
  · intro hab
    apply extract_block_eq_of_none
    apply (findOcc_eq_none_iff s content).mpr
    intro i
    by_cases hi : i ≤ content.length
    · exact hab i hi
    · by_contra hocc
      rw [Bool.not_eq_false] at hocc
      obtain ⟨i2, hle, htrue⟩ := occursAtB_exists_le s content i hocc
      rw [hab i2 hle] at htrue
      exact absurd htrue (by simp)
  · intro i hocc hmin
    have hfind : findOcc s content = some i :=
      (findOcc_eq_some_iff s content i).mpr ⟨hocc, hmin⟩
    have hbound : i + s.length ≤ content.length := by
      by_cases hs : s = []
      · subst hs
        have h0 : occursAtB ([] : Str) content 0 = true := by
          simp [occursAtB, List.isPrefixOf]
        have hi0 : i = 0 := by
          by_contra hne
          have := hmin 0 (by omega)
          rw [h0] at this
          exact absurd this (by simp)
        subst hi0
        simp
      · exact occursAtB_length_le s content i hocc hs
    constructor
    · intro habs
      rw [extract_block_eq_of_some content s e i hfind]
      have hnone : findOcc e (content.drop (i + s.length)) = none := by
        apply (findOcc_eq_none_iff e _).mpr
        intro j
        rw [occursAtB_drop]
        by_cases hj : i + s.length + j ≤ content.length
        · exact habs (i + s.length + j) hj (by omega)
        · by_contra hocc2
          rw [Bool.not_eq_false] at hocc2
          have hh := occursAtB_true_of_high e content (i + s.length + j) hocc2 (by omega)
          have := habs content.length (le_refl _) hbound
          rw [hh.2] at this
          exact absurd this (by simp)
      rw [hnone]
    · intro j hj hoccj hminj
      rw [extract_block_eq_of_some content s e i hfind]
      have hsome : findOcc e (content.drop (i + s.length)) = some (j - (i + s.length)) := by
        apply (findOcc_eq_some_iff e _ _).mpr
        constructor
        · rw [occursAtB_drop]
          have heq : i + s.length + (j - (i + s.length)) = j := by omega
          rw [heq]
          exact hoccj
        · intro k hk
          rw [occursAtB_drop]
          exact hminj (i + s.length + k) (by omega) (by omega)
      rw [hsome]

/-- Witness for C6 at a concrete input with tags containing regex
    metacharacters, a span crossing a line boundary and both tags repeated
    later in the content. -/
theorem c6_witness :
    extract_block ("a[*]\nhi\n[+]b[*]c[+]").data ("[*]").data ("[+]").data
      = ('h' :: 'i' :: []) := by
  have h := (c6_extract_block_spec ("a[*]\nhi\n[+]b[*]c[+]").data ("[*]").data
      ("[+]").data).2 1 (by decide) (by decide)
  have h2 := h.2 8 (by decide) (by decide) (by decide)
  rw [h2]
  decide

/-- C7 counterexample: the round trip extract(startTag ++ x ++ endTag) = x
    fails as stated even when x contains neither delimiter.  First input: x
    has surrounding whitespace, which extract_block strips.  Second input: an
    occurrence of the end tag straddles the boundary between x and the
    appended end tag, so extraction stops early; this x is whitespace free, so
    the failure is independent of trimming. -/
theorem c7_counterexample :
    (containsTok (" a ").data ("[B]").data = false
      ∧ containsTok (" a ").data ("[E]").data = false
      ∧ extract_block ("[B] a [E]").data ("[B]").data ("[E]").data ≠ (" a ").data)
    ∧ (containsTok ("aZ").data ("[").data = false
      ∧ containsTok ("aZ").data ("ZZ").data = false
      ∧ pyStrip ("aZ").data = ("aZ").data
      ∧ extract_block ("[aZZZ").data ("[").data ("ZZ").data ≠ ("aZ").data) := by
  decide

/-- C7 amended: the round trip holds for every x that equals its trimmed form
    and in which no occurrence of the end tag begins strictly before the
    appended end tag (in particular x does not contain the end tag and no
    occurrence straddles the boundary into it). -/
theorem c7_amended (s e x : Str)
    (hx : pyStrip x = x)
    (hmin : ∀ j, j < x.length → occursAtB e (x ++ e) j = false) :
    extract_block (s ++ x ++ e) s e = x := by
  rw [List.append_assoc]
  have hocc0 : occursAtB s (s ++ (x ++ e)) 0 = true := by
    rw [occursAtB_zero]
    exact List.isPrefixOf_iff_prefix.mpr (List.prefix_append s (x ++ e))
  have hfs : findOcc s (s ++ (x ++ e)) = some 0 :=
    (findOcc_eq_some_iff s _ 0).mpr ⟨hocc0, by intro k hk; omega⟩
  rw [extract_block_eq_of_some _ s e 0 hfs]
  have hdrop : (s ++ (x ++ e)).drop (0 + s.length) = x ++ e := by
    rw [Nat.zero_add]
    exact List.drop_left s (x ++ e)
  rw [hdrop]
  have hocce : occursAtB e (x ++ e) x.length = true := by
    unfold occursAtB
    rw [List.drop_left x e]
    exact List.isPrefixOf_iff_prefix.mpr List.prefix_rfl
  have hfe : findOcc e (x ++ e) = some x.length :=
    (findOcc_eq_some_iff e _ _).mpr ⟨hocce, hmin⟩
  rw [hfe]
  simp only
  rw [List.take_left x e, hx]

/-- Witness for the amended C7 at concrete tags and payload. -/
theorem c7_amended_witness :
    extract_block (("[B]").data ++ ("hello").data ++ ("[E]").data)
      ("[B]").data ("[E]").data = ("hello").data :=
  c7_amended ("[B]").data ("[E]").data ("hello").data (by decide) (by decide)

/-
  Model of the Python values that json.loads can produce: the JSON scalars,
  arrays and objects.  Object keys are strings, as in JSON.  Floats are
  modelled as exact rationals; this is enough for the int() truncation the
  code performs (IEEE rounding of the decoder is outside the model and no
  claim depends on it).  json.loads itself is the Python standard library,
  consumed as a black box: the session-parsing model below takes a decoder
  function of type Str -> Option PyVal as a parameter, where none models a
  raised decoding exception.
-/
inductive PyVal where
  | null
  | bool (b : Bool)
  | int (n : Int)
  | float (q : Rat)
  | str (s : Str)
  | list (xs : List PyVal)
  | dict (kvs : List (Str × PyVal))

/-- Python truthiness of a decoded value, used for the expression
    data.get("assistant_focuses") or followed by an empty dict. -/
def py_truthy : PyVal → Bool
  | PyVal.null => false
  | PyVal.bool b => b
  | PyVal.int n => n != 0
  | PyVal.float q => q != 0
  | PyVal.str s => !s.isEmpty
  | PyVal.list xs => !xs.isEmpty
  | PyVal.dict kvs => !kvs.isEmpty

/-- Numeric value of a decimal digit. -/
def digitVal (c : Char) : Option Nat :=
  if '0' ≤ c ∧ c ≤ '9' then some (c.toNat - 48) else none

/-- Value of a nonempty all-digit string. -/
def digitsVal (l : Str) : Option Nat :=
  if l.isEmpty then none
  else l.foldl
    (fun acc c =>
      match acc, digitVal c with
      | some a, some d => some (a * 10 + d)
      | _, _ => none)
    (some 0)

/-- Model of int(s) for a Python string: surrounding whitespace is stripped,
    an optional sign is allowed, and the remainder must be decimal digits.
    Returns none where Python raises ValueError.  (Underscore separators and
    non-ASCII digits, which Python also accepts, are not modelled; they only
    make additional strings coercible and no claim depends on them.) -/
def pyIntOfStr (s : Str) : Option Int :=
  match pyStrip s with
  | [] => none
  | '+' :: r => (digitsVal r).map Int.ofNat
  | '-' :: r => (digitsVal r).map (fun n => -(Int.ofNat n))
  | t => (digitsVal t).map Int.ofNat

/-- Truncation toward zero, the behaviour of int() on a float. -/
def pyTruncRat (q : Rat) : Int :=
  if q < 0 then -(Rat.floor (-q)) else Rat.floor q

/-- Model of int(v) on a decoded JSON value: identity on integers, 0 or 1 on
    booleans, truncation on floats, digit parsing on strings; none models the
    TypeError or ValueError Python raises on null, lists, dicts and
    non-numeric strings. -/
def py_to_int : PyVal → Option Int
  | PyVal.int n => some n
  | PyVal.bool b => some (if b then 1 else 0)
  | PyVal.float q => some (pyTruncRat q)
  | PyVal.str s => pyIntOfStr s
  | _ => none

/-- Model of data.get(key, default): some value for a dict (the stored value,
    or the default when the key is missing), none for every other value,
    where Python raises AttributeError. -/
def py_dict_get : PyVal → Str → PyVal → Option PyVal
  | PyVal.dict kvs, k, dflt =>
    some (match kvs.find? (fun kv => kv.1 == k) with
          | some kv => kv.2
          | none => dflt)
  | _, _, _ => none

/-
  Session state: the three fields of the CCHeavy object that
  parse_session_output may mutate (src/ccheavy.py lines 38-53).
  parallel_agents is a Python int, assistant_focuses a dict from int keys to
  strings modelled as an association list in insertion order, and
  synthesis_prompt a string.  The artifact writes of parse_session_output
  (research plan, per-assistant findings, final analysis, lines 445-465) are
  file side effects that no claim depends on and are not part of the state.
-/
structure SessionState where
  parallel_agents : Int
  assistant_focuses : List (Int × Str)
  synthesis_prompt : Str
deriving DecidableEq

def tagBeginPlanJson : Str := ("[BEGIN_PLAN_JSON]").data
def tagEndPlanJson : Str := ("[END_PLAN_JSON]").data
def tagBeginSynth : Str := ("[BEGIN_SYNTH_PROMPT]").data
def tagEndSynth : Str := ("[END_SYNTH_PROMPT]").data
def keyAssistantCount : Str := ("assistant_count").data
def keyAssistantFocuses : Str := ("assistant_focuses").data

/-- Model of the Python dict item assignment parsed_focuses[idx] = v:
    overwrite an existing binding in place, otherwise append. -/
def setIdx (m : List (Int × Str)) (k : Int) (v : Str) : List (Int × Str) :=
  if m.any (fun kv => kv.1 == k) then
    m.map (fun kv => if kv.1 == k then (k, v) else kv)
  else m ++ [(k, v)]

/-- Model of the focus-validation loops of parse_session_output
    (src/ccheavy.py lines 477-494): a dict contributes entries whose key
    coerces to an int in 1..8 and whose value is a string with nonempty
    trimmed form; a list is enumerated from index 1, stopping after
    max_assistants entries, with the same value check; any other shape
    contributes nothing. -/
def focusStepDict (parsed : List (Int × Str)) (kv : Str × PyVal) : List (Int × Str) :=
  match pyIntOfStr kv.1 with
  | none => parsed
  | some idx =>
    if 1 ≤ idx ∧ idx ≤ 8 then
      match kv.2 with
      | PyVal.str v => if pyStrip v ≠ [] then setIdx parsed idx (pyStrip v) else parsed
      | _ => parsed
    else parsed

def focusStepList (parsed : List (Int × Str)) (iv : Nat × PyVal) : List (Int × Str) :=
  match iv.2 with
  | PyVal.str v => if pyStrip v ≠ [] then setIdx parsed (Int.ofNat iv.1) (pyStrip v) else parsed
  | _ => parsed

def parse_focuses : PyVal → List (Int × Str)
  | PyVal.dict kvs => kvs.foldl focusStepDict []
  | PyVal.list vs => ((List.range' 1 (min vs.length 8)).zip (vs.take 8)).foldl focusStepList []
  | _ => []

/-- Count update of parse_session_output (lines 474-476): only an int in
    2..max_assistants overwrites parallel_agents. -/
def applyCount (st : SessionState) (count : Int) : SessionState :=
  if 2 ≤ count ∧ count ≤ 8 then { st with parallel_agents := count } else st

/-- Focus update (lines 495-496): only a nonempty validated map overwrites
    assistant_focuses. -/
def applyFocuses (st : SessionState) (parsed : List (Int × Str)) : SessionState :=
  if parsed ≠ [] then { st with assistant_focuses := parsed } else st

/-- Synthesis-prompt update (lines 498-502): only a nonempty extracted block
    overwrites synthesis_prompt. -/
def applySynth (st : SessionState) (content : Str) : SessionState :=
  let sp := extract_block content tagBeginSynth tagEndSynth
  if sp ≠ [] then { st with synthesis_prompt := pyStrip sp } else st

/-- Model of the state effects of CCHeavy.parse_session_output
    (src/ccheavy.py lines 467-505).  The whole block runs inside one
    try/except that swallows every exception, so each point where Python can
    raise (json.loads on a malformed block, .get on a non-dict, int() on a
    non-coercible value) returns the state accumulated so far and skips the
    rest, including the synthesis-prompt extraction at the end of the same
    try block.  loads is the json.loads oracle; none models a raised
    decoding exception. -/
def parse_session_output (loads : Str → Option PyVal) (st : SessionState)
    (content : Str) : SessionState :=
  let plan_json := extract_block content tagBeginPlanJson tagEndPlanJson
  if plan_json = [] then applySynth st content
  else
    match loads plan_json with
    | none => st
    | some data =>
      match py_dict_get data keyAssistantCount (PyVal.int 0) with
      | none => st
      | some v =>
        match py_to_int v with
        | none => st
        | some count =>
          let st1 := applyCount st count
          match py_dict_get data keyAssistantFocuses PyVal.null with
          | none => st1
          | some fv =>
            let focuses := if py_truthy fv then fv else PyVal.dict []
            let st2 := applyFocuses st1 (parse_focuses focuses)
            applySynth st2 content

/-- Validity of one focus entry as enforced by the validation loops: index in
    1..max_assistants and a nonempty value. -/
def validFocusB (kv : Int × Str) : Bool :=
  (decide (1 ≤ kv.1) && decide (kv.1 ≤ 8)) && !kv.2.isEmpty

lemma setIdx_all_valid (m : List (Int × Str)) (k : Int) (v : Str)
    (hm : m.all validFocusB = true) (hkv : validFocusB (k, v) = true) :
    (setIdx m k v).all validFocusB = true := by
  unfold setIdx
  split
  · rw [List.all_eq_true] at *
    intro x hx
    rw [List.mem_map] at hx
    obtain ⟨y, hy, heq⟩ := hx
    by_cases hk : (y.1 == k) = true
    · rw [if_pos hk] at heq
      rw [← heq]
      exact hkv
    · rw [if_neg hk] at heq
      rw [← heq]
      exact hm y hy
  · rw [List.all_append]
    simp only [hm, Bool.true_and, List.all_cons, List.all_nil, Bool.and_true]
    exact hkv

lemma setIdx_ne_nil (m : List (Int × Str)) (k : Int) (v : Str)
    (hm : m ≠ []) : setIdx m k v ≠ [] := by
  unfold setIdx
  split
  · intro h
    apply hm
    exact List.map_eq_nil_iff.mp h
  · intro h
    have := List.append_eq_nil.mp h
    exact absurd this.2 (by simp)

lemma foldl_focusStepDict_valid (kvs : List (Str × PyVal)) :
    ∀ acc : List (Int × Str), acc.all validFocusB = true →
      (kvs.foldl focusStepDict acc).all validFocusB = true := by
  induction kvs with
  | nil => intro acc hacc; exact hacc
  | cons kv rest ih =>
    intro acc hacc
    rw [List.foldl_cons]
    apply ih
    unfold focusStepDict
    cases pyIntOfStr kv.1 with
    | none => exact hacc
    | some idx =>
      simp only
      split
      · rename_i hrange
        split
        all_goals try exact hacc
        rename_i v hv2
        split
        · rename_i hne
          apply setIdx_all_valid _ _ _ hacc
          unfold validFocusB
          simp only [Bool.and_eq_true, decide_eq_true_eq, Bool.not_eq_true',
            List.isEmpty_eq_false]
          exact ⟨⟨hrange.1, hrange.2⟩, hne⟩
        · exact hacc
      · exact hacc

lemma foldl_focusStepList_valid (ps : List (Nat × PyVal))
    (hmem : ∀ p ∈ ps, 1 ≤ p.1 ∧ p.1 ≤ 8) :
    ∀ acc : List (Int × Str), acc.all validFocusB = true →
      (ps.foldl focusStepList acc).all validFocusB = true := by
  induction ps with
  | nil => intro acc hacc; exact hacc
  | cons p rest ih =>
    intro acc hacc
    rw [List.foldl_cons]
    apply ih
    · intro q hq
      exact hmem q (List.mem_cons_of_mem p hq)
    · unfold focusStepList
      split
      all_goals try exact hacc
      rename_i v hv2
      split
      · rename_i hne
        have hp := hmem p (List.mem_cons_self p rest)
        apply setIdx_all_valid _ _ _ hacc
        unfold validFocusB
        simp only [Bool.and_eq_true, decide_eq_true_eq, Bool.not_eq_true',
          List.isEmpty_eq_false]
        constructor
        · rw [Int.ofNat_eq_coe]
          constructor
          · omega
          · omega
        · exact hne
      · exact hacc

lemma parse_focuses_all_valid (v : PyVal) :
    (parse_focuses v).all validFocusB = true := by
  cases v with
  | dict kvs => exact foldl_focusStepDict_valid kvs [] rfl
  | list vs =>
    apply foldl_focusStepList_valid _ _ [] rfl
    intro p hp
    have := (List.of_mem_zip hp).1
    rw [List.mem_range'_1] at this
    omega
  | null => rfl
  | bool b => rfl
  | int n => rfl
  | float q => rfl
  | str s => rfl

-- Field behaviour of the three update helpers.

lemma applyCount_focus_eq (st : SessionState) (c : Int) :
    (applyCount st c).assistant_focuses = st.assistant_focuses := by
  unfold applyCount
  split <;> rfl

lemma applyCount_sp_eq (st : SessionState) (c : Int) :
    (applyCount st c).synthesis_prompt = st.synthesis_prompt := by
  unfold applyCount
  split <;> rfl

lemma applyCount_pa_shape (st : SessionState) (c : Int) :
    (applyCount st c).parallel_agents = st.parallel_agents
      ∨ (2 ≤ (applyCount st c).parallel_agents ∧ (applyCount st c).parallel_agents ≤ 8) := by
  unfold applyCount
  split
  · rename_i h
    right
    exact h
  · left
    rfl

lemma applyFocuses_pa_eq (st : SessionState) (p : List (Int × Str)) :
    (applyFocuses st p).parallel_agents = st.parallel_agents := by
  unfold applyFocuses
  split <;> rfl

lemma applyFocuses_sp_eq (st : SessionState) (p : List (Int × Str)) :
    (applyFocuses st p).synthesis_prompt = st.synthesis_prompt := by
  unfold applyFocuses
  split <;> rfl

lemma applyFocuses_focus_shape (st : SessionState) (p : List (Int × Str)) :
    (applyFocuses st p).assistant_focuses = st.assistant_focuses
      ∨ ((applyFocuses st p).assistant_focuses = p ∧ p ≠ []) := by
  unfold applyFocuses
  split
  · rename_i h
    right
    exact ⟨rfl, h⟩
  · left
    rfl

lemma applySynth_pa_eq (st : SessionState) (content : Str) :
    (applySynth st content).parallel_agents = st.parallel_agents := by
  unfold applySynth
  simp only
  split <;> rfl

lemma applySynth_focus_eq (st : SessionState) (content : Str) :
    (applySynth st content).assistant_focuses = st.assistant_focuses := by
  unfold applySynth
  simp only
  split <;> rfl

lemma applySynth_sp_shape (st : SessionState) (content : Str) :
    (applySynth st content).synthesis_prompt = st.synthesis_prompt
      ∨ (applySynth st content).synthesis_prompt ≠ [] := by
  unfold applySynth
  simp only
  split
  · rename_i h
    right
    show pyStrip (extract_block content tagBeginSynth tagEndSynth) ≠ []
    rw [extract_block_strip_fixed]
    exact h
  · left
    rfl

/-- Shape of the parse result: each of the three session fields is either
    untouched or holds a validated nonempty value. -/
lemma parse_fields_shape (loads : Str → Option PyVal) (st : SessionState) (content : Str) :
    ((parse_session_output loads st content).parallel_agents = st.parallel_agents
      ∨ (2 ≤ (parse_session_output loads st content).parallel_agents
          ∧ (parse_session_output loads st content).parallel_agents ≤ 8))
    ∧ ((parse_session_output loads st content).assistant_focuses = st.assistant_focuses
      ∨ ((parse_session_output loads st content).assistant_focuses ≠ []
          ∧ (parse_session_output loads st content).assistant_focuses.all validFocusB = true))
    ∧ ((parse_session_output loads st content).synthesis_prompt = st.synthesis_prompt
      ∨ (parse_session_output loads st content).synthesis_prompt ≠ []) := by
  unfold parse_session_output
  simp only
  split
  · -- no plan block: only the synthesis extraction runs
    exact ⟨Or.inl (applySynth_pa_eq st content),
      Or.inl (applySynth_focus_eq st content),
      applySynth_sp_shape st content⟩
  · split
    · exact ⟨Or.inl rfl, Or.inl rfl, Or.inl rfl⟩
    · rename_i data hdata
      split
      · exact ⟨Or.inl rfl, Or.inl rfl, Or.inl rfl⟩
      · rename_i v hv
        split
        · exact ⟨Or.inl rfl, Or.inl rfl, Or.inl rfl⟩
        · rename_i count hcount
          split
          · exact ⟨applyCount_pa_shape st count,
              Or.inl (applyCount_focus_eq st count),
              Or.inl (applyCount_sp_eq st count)⟩
          · rename_i fv hfv
            refine ⟨?_, ?_, ?_⟩
            · rw [applySynth_pa_eq, applyFocuses_pa_eq]
              exact applyCount_pa_shape st count
            · rw [applySynth_focus_eq]
              rcases applyFocuses_focus_shape (applyCount st count)
                  (parse_focuses (if py_truthy fv then fv else PyVal.dict [])) with h | h
              · left
                rw [h, applyCount_focus_eq]
              · right
                rw [h.1]
                exact ⟨h.2, parse_focuses_all_valid _⟩
            · rcases applySynth_sp_shape
                  (applyFocuses (applyCount st count)
                    (parse_focuses (if py_truthy fv then fv else PyVal.dict []))) content with h | h
              · left
                rw [h, applyFocuses_sp_eq, applyCount_sp_eq]
              · right
                exact h

/-- C10: parsing a planning response never clears previously established
    configuration.  parse_session_output overwrites parallel_agents only with
    an in-range count, replaces the focus map only with a nonempty validated
    map, and replaces the synthesis prompt only with a nonempty block; hence
    an in-range count, a nonempty focus map and a nonempty prompt obtained
    from a first parse survive a re-parse of the retry response. -/
theorem c10_parse_monotone (loads : Str → Option PyVal) (st : SessionState) (content : Str) :
    ((parse_session_output loads st content).parallel_agents ≠ st.parallel_agents →
        2 ≤ (parse_session_output loads st content).parallel_agents
          ∧ (parse_session_output loads st content).parallel_agents ≤ 8)
    ∧ ((parse_session_output loads st content).assistant_focuses ≠ st.assistant_focuses →
        (parse_session_output loads st content).assistant_focuses ≠ []
          ∧ (parse_session_output loads st content).assistant_focuses.all validFocusB = true)
    ∧ ((parse_session_output loads st content).synthesis_prompt ≠ st.synthesis_prompt →
        (parse_session_output loads st content).synthesis_prompt ≠ [])
    ∧ (2 ≤ st.parallel_agents → st.parallel_agents ≤ 8 →
        2 ≤ (parse_session_output loads st content).parallel_agents
          ∧ (parse_session_output loads st content).parallel_agents ≤ 8)
    ∧ (st.assistant_focuses ≠ [] →
        (parse_session_output loads st content).assistant_focuses ≠ [])
    ∧ (st.synthesis_prompt ≠ [] →
        (parse_session_output loads st content).synthesis_prompt ≠ []) := by
  obtain ⟨hpa, hf, hsp⟩ := parse_fields_shape loads st content
  refine ⟨?_, ?_, ?_, ?_, ?_, ?_⟩
  · intro hne
    rcases hpa with h | h
    · exact absurd h hne
    · exact h
  · intro hne
    rcases hf with h | h
    · exact absurd h hne
    · exact h
  · intro hne
    rcases hsp with h | h
    · exact absurd h hne
    · exact h
  · intro h2 h8
    rcases hpa with h | h
    · rw [h]; exact ⟨h2, h8⟩
    · exact h
  · intro hne
    rcases hf with h | h
    · rw [h]; exact hne
    · exact h.1
  · intro hne
    rcases hsp with h | h
    · rw [h]; exact hne
    · exact h

/-- Witness for C10: a prior nonempty synthesis prompt survives a parse of a
    response whose plan block decoding fails. -/
theorem c10_witness :
    (parse_session_output (fun _ => none)
      ⟨4, [], ("p").data⟩ ("[BEGIN_PLAN_JSON]bad[END_PLAN_JSON]").data).synthesis_prompt ≠ [] :=
  (c10_parse_monotone (fun _ => none) ⟨4, [], ("p").data⟩
    ("[BEGIN_PLAN_JSON]bad[END_PLAN_JSON]").data).2.2.2.2.2 (by decide)

/-- C2 counterexample: the same response carries a malformed plan block and a
    nonempty synthesis-prompt block; the decoder oracle rejects the plan block
    (as json.loads does on malformed input).  The parse leaves the whole state
    unchanged, so the synthesis prompt of that response is NOT extracted even
    though its block is present and nonempty: the decode failure does prevent
    the synthesis-prompt extraction of the same pass. -/
theorem c2_counterexample :
    extract_block
        ("[BEGIN_PLAN_JSON]notjson[END_PLAN_JSON][BEGIN_SYNTH_PROMPT]Use this[END_SYNTH_PROMPT]").data
        tagBeginSynth tagEndSynth = ("Use this").data
    ∧ extract_block
        ("[BEGIN_PLAN_JSON]notjson[END_PLAN_JSON][BEGIN_SYNTH_PROMPT]Use this[END_SYNTH_PROMPT]").data
        tagBeginPlanJson tagEndPlanJson ≠ []
    ∧ parse_session_output (fun _ => none) ⟨4, [], []⟩
        ("[BEGIN_PLAN_JSON]notjson[END_PLAN_JSON][BEGIN_SYNTH_PROMPT]Use this[END_SYNTH_PROMPT]").data
        = ⟨4, [], []⟩ := by
  refine ⟨by decide, by decide, by decide⟩

/-- C2 amended: when the plan block is present but its decoding fails, the
    parse never raises (the model is a total function) and returns the state
    unchanged: assistant count, focus map and synthesis prompt all keep their
    prior values, and the synthesis-prompt extraction of that same pass is
    skipped rather than performed. -/
theorem c2_amended (loads : Str → Option PyVal) (st : SessionState) (content : Str)
    (h1 : extract_block content tagBeginPlanJson tagEndPlanJson ≠ [])
    (h2 : loads (extract_block content tagBeginPlanJson tagEndPlanJson) = none) :
    parse_session_output loads st content = st := by
  unfold parse_session_output
  simp only
  rw [if_neg h1, h2]

/-- Witness for the amended C2 at a concrete malformed-plan input. -/
theorem c2_amended_witness :
    parse_session_output (fun _ => none) ⟨4, [], []⟩
      ("[BEGIN_PLAN_JSON]x[END_PLAN_JSON]").data = ⟨4, [], []⟩ :=
  c2_amended (fun _ => none) ⟨4, [], []⟩ ("[BEGIN_PLAN_JSON]x[END_PLAN_JSON]").data
    (by decide) rfl

/-- C5 counterexample: the decoded assistant_count value is the JSON string
    made of the digit 4, not an integer; Python int() coerces it and the
    session count, previously 7, is overwritten with 4.  The claim that any
    non-integer value is discarded is therefore false. -/
theorem c5_counterexample :
    py_to_int (PyVal.str (("4").data)) = some 4
    ∧ (parse_session_output
        (fun _ => some (PyVal.dict [(keyAssistantCount, PyVal.str (("4").data))]))
        ⟨7, [], []⟩ ("[BEGIN_PLAN_JSON]x[END_PLAN_JSON]").data).parallel_agents = 4 := by
  refine ⟨by decide, by decide⟩

/-- C5 amended: for a decoded plan object, the assistant_count value is fed
    through the int() coercion.  If the coercion fails (null, list, dict or a
    non-numeric string) the whole remaining plan processing is skipped and the
    state, in particular the prior count, is unchanged; if it yields an
    integer outside 2..8 (so also for the values 1, 0 and 9 of the claim) the
    prior count is kept; if it yields an integer in 2..8 the count is
    overwritten with it.  A value that is not an integer but coerces to an
    in-range integer, such as the JSON string made of the digit 4, does
    overwrite the prior count. -/
theorem c5_amended (loads : Str → Option PyVal) (st : SessionState) (content : Str)
    (data v : PyVal)
    (hne : extract_block content tagBeginPlanJson tagEndPlanJson ≠ [])
    (hl : loads (extract_block content tagBeginPlanJson tagEndPlanJson) = some data)
    (hv : py_dict_get data keyAssistantCount (PyVal.int 0) = some v) :
    (py_to_int v = none → parse_session_output loads st content = st)
    ∧ (∀ c : Int, py_to_int v = some c → ¬(2 ≤ c ∧ c ≤ 8) →
        (parse_session_output loads st content).parallel_agents = st.parallel_agents)
    ∧ (∀ c : Int, py_to_int v = some c → 2 ≤ c → c ≤ 8 →
        (parse_session_output loads st content).parallel_agents = c) := by
  cases data with
  | dict kvs =>
    unfold parse_session_output
    simp only
    rw [if_neg hne, hl]
    simp only
    rw [hv]
    simp only
    refine ⟨?_, ?_, ?_⟩
    · intro h0
      rw [h0]
    · intro c hc hrange
      rw [hc]
      simp only [py_dict_get]
      rw [applySynth_pa_eq, applyFocuses_pa_eq]
      unfold applyCount
      rw [if_neg hrange]
    · intro c hc h2 h8
      rw [hc]
      simp only [py_dict_get]
      rw [applySynth_pa_eq, applyFocuses_pa_eq]
      unfold applyCount
      rw [if_pos ⟨h2, h8⟩]
  | null => exact absurd hv (by simp [py_dict_get])
  | bool b => exact absurd hv (by simp [py_dict_get])
  | int n => exact absurd hv (by simp [py_dict_get])
  | float q => exact absurd hv (by simp [py_dict_get])
  | str s => exact absurd hv (by simp [py_dict_get])
  | list xs => exact absurd hv (by simp [py_dict_get])

/-- Witness for the amended C5: an integer 5 in range overwrites the count. -/
theorem c5_amended_witness :
    (parse_session_output
      (fun _ => some (PyVal.dict [(keyAssistantCount, PyVal.int 5)]))
      ⟨4, [], []⟩ ("[BEGIN_PLAN_JSON]x[END_PLAN_JSON]").data).parallel_agents = 5 :=
  (c5_amended (fun _ => some (PyVal.dict [(keyAssistantCount, PyVal.int 5)]))
    ⟨4, [], []⟩ ("[BEGIN_PLAN_JSON]x[END_PLAN_JSON]").data
    (PyVal.dict [(keyAssistantCount, PyVal.int 5)]) (PyVal.int 5)
    (by decide) rfl rfl).2.2 5 rfl (by decide) (by decide)

/-
  Oracle view of the external generation capability.  run_cursor_agent
  (src/ccheavy.py lines 161-206) spawns the cursor-agent process with a
  prompt and a run directory, writes its stdout to the output file and
  returns whether the exit status was zero; on an internal exception it
  appends an error message to the output file and returns False.  The model
  abstracts one invocation as a GenResult: ok is the boolean the method
  returns and text is whatever ended up in the output file.  Successive
  invocations of a run are numbered and served by a function from the call
  number.
-/
structure GenResult where
  ok : Bool
  text : Str
deriving DecidableEq

/-- Execution directory of a task: the validated session working directory,
    or a fresh disposable scratch directory (tempfile.mkdtemp). -/
inductive Dir where
  | working
  | scratch (id : Nat)
deriving DecidableEq

/-- Observable outcome of one worker task. -/
structure WorkerOutcome where
  attempts : Nat
  call_dirs : List Dir
  sleeps : List Nat
  final_output : Str
  trailer_appended : Bool
  tmp_created : Bool
  tmp_removed : Bool
deriving DecidableEq

/-- Termination of a worker task: normal completion, or an exception (for
    example KeyboardInterrupt on cancellation) escaping mid-task.  The flags
    record whether a scratch directory was created and whether its removal
    was attempted before the task ended. -/
inductive WorkerExit where
  | completed (o : WorkerOutcome)
  | interrupted (tmp_created : Bool) (tmp_removed : Bool)
deriving DecidableEq

/-- Diagnostic trailer appended on failure (src/ccheavy.py line 315). -/
def trailerText (assistant_num : Nat) (error_file : Str) : Str :=
  ("\nRA-").data ++ Nat.toDigits 10 assistant_num
    ++ (": cursor-agent failed. See ").data ++ error_file

/-- Model of CCHeavy._run_assistant_with_retry (src/ccheavy.py lines
    283-322).  The run directory is computed once: the working directory when
    one is set, otherwise a fresh scratch directory.  The first attempt runs;
    if the captured output is empty after stripping, the code sleeps one
    second and retries once in the same directory, overwriting the output
    file.  If the last attempt reported failure, the trailer naming the error
    log is appended to the output file.  Finally, if a scratch directory was
    created it is removed - but this removal is straight-line code at the end
    of the method, not a finally block, so an exception raised at the sleep
    suspension point (modelled by interruptOnRetrySleep) leaves the method
    without attempting removal.  run_cursor_agent always creates the output
    file, so the FileNotFoundError guard of the read-back is unreachable and
    the file content equals the oracle text. -/
def run_assistant_with_retry (gen : Nat → GenResult) (k : Nat)
    (workingDirSet : Bool) (tmpId : Nat) (interruptOnRetrySleep : Bool)
    (error_file : Str) (assistant_num : Nat) : WorkerExit :=
  let run_dir : Dir := if workingDirSet then Dir.working else Dir.scratch tmpId
  let tmp : Bool := !workingDirSet
  let r1 := gen k
  if pyStrip r1.text = [] then
    if interruptOnRetrySleep then WorkerExit.interrupted tmp false
    else
      let r2 := gen (k + 1)
      WorkerExit.completed
        { attempts := 2
          call_dirs := [run_dir, run_dir]
          sleeps := [1]
          final_output :=
            if r2.ok then r2.text else r2.text ++ trailerText assistant_num error_file
          trailer_appended := !r2.ok
          tmp_created := tmp
          tmp_removed := tmp }
  else
    WorkerExit.completed
      { attempts := 1
        call_dirs := [run_dir]
        sleeps := []
        final_output :=
          if r1.ok then r1.text else r1.text ++ trailerText assistant_num error_file
        trailer_appended := !r1.ok
        tmp_created := tmp
        tmp_removed := tmp }

/-- Outcome of the planning orchestrator: result none models the RuntimeError
    raised when the required synthesis prompt is still missing; calls counts
    the generation invocations; cleanup_attempted records whether the finally
    block removed the scratch directory (it runs on every path). -/
structure PlanOutcome where
  result : Option SessionState
  calls : Nat
  cleanup_attempted : Bool
deriving DecidableEq

/-- Model of CCHeavy.run_planning_orchestrator (src/ccheavy.py lines
    507-565).  The session log holds only the text of the latest invocation
    (each call overwrites it), so each parse reads the corresponding oracle
    text.  Note that the entire retry-and-raise logic sits inside
    if success: - when the first invocation reports failure the method
    returns normally with the state unchanged and never raises.  The scratch
    directory removal is in a finally block and runs on every path. -/
def run_planning_orchestrator (gen : Nat → GenResult) (loads : Str → Option PyVal)
    (st : SessionState) (k : Nat) (workingDirSet : Bool) : PlanOutcome :=
  let tmp := !workingDirSet
  let r1 := gen k
  if r1.ok then
    let st1 := parse_session_output loads st r1.text
    if st1.synthesis_prompt = [] then
      let r2 := gen (k + 1)
      let st2 := if r2.ok then parse_session_output loads st1 r2.text else st1
      if st2.synthesis_prompt = [] then
        { result := none, calls := 2, cleanup_attempted := tmp }
      else { result := some st2, calls := 2, cleanup_attempted := tmp }
    else { result := some st1, calls := 1, cleanup_attempted := tmp }
  else { result := some st, calls := 1, cleanup_attempted := tmp }

/-- Built-in focus lookup table (src/ccheavy.py lines 73-85). -/
def get_focus_for_index (idx : Nat) : Str :=
  if idx = 1 then ("Factual research and direct information").data
  else if idx = 2 then ("Analysis and metrics").data
  else if idx = 3 then ("Alternative perspectives and criticisms").data
  else if idx = 4 then ("Case studies and examples").data
  else if idx = 5 then ("Implementation challenges and risks").data
  else if idx = 6 then ("Future trends and research gaps").data
  else if idx = 7 then ("Ethical, legal, and societal implications").data
  else if idx = 8 then ("Contrarian view and edge cases").data
  else ("General research").data

/-- Default focus map seeded for indices 1..n (the dict comprehension of
    src/ccheavy.py lines 638-641). -/
def default_focus_map (n : Nat) : List (Int × Str) :=
  (List.range' 1 n).map (fun i => (Int.ofNat i, get_focus_for_index i))

/-- Fallbacks applied by CCHeavy.run after planning (src/ccheavy.py lines
    633-641): an out-of-range count becomes 4 and an empty focus map is
    seeded with the built-in defaults up to the decided count. -/
def apply_fallbacks (st : SessionState) : SessionState :=
  let st1 :=
    if 2 ≤ st.parallel_agents ∧ st.parallel_agents ≤ 8 then st
    else { st with parallel_agents := 4 }
  if st1.assistant_focuses = [] then
    { st1 with assistant_focuses := default_focus_map st1.parallel_agents.toNat }
  else st1

/-- Externally visible events of a run, in order. -/
inductive REvent where
  | mkdirRoot
  | mkdirAssistants
  | planningCall
  | workerDispatch (i : Nat)
  | synthesisCall
deriving DecidableEq

def isWorkerDispatch : REvent → Bool
  | REvent.workerDispatch _ => true
  | _ => false

/-- Model of CCHeavy.run composed with the exception handling of main
    (src/ccheavy.py lines 584-649 and src/main.py lines 36-46), restricted to
    the command-line path with a query given and the confirmation prompt
    skipped.  Returns the ordered event list and the process exit status.
    setup_directories creates the run output root and its assistants
    subdirectory before anything else; then the cursor-agent binary is probed
    and, when absent, run prints a message and returns normally - main sees
    no exception and the interpreter exits with status 0.  Otherwise the
    planning orchestrator runs; its RuntimeError propagates to main, which
    exits with status 1, so no worker is dispatched on that path.  Otherwise
    the fallbacks are applied and one worker per index 1..parallel_agents is
    dispatched, followed by the synthesis call, and the run exits 0. -/
def run_model (gen : Nat → GenResult) (loads : Str → Option PyVal)
    (binaryPresent : Bool) (workingDirSet : Bool) (st : SessionState) :
    List REvent × Nat :=
  let ev0 := [REvent.mkdirRoot, REvent.mkdirAssistants]
  if binaryPresent then
    let p := run_planning_orchestrator gen loads st 0 workingDirSet
    let ev1 := ev0 ++ List.replicate p.calls REvent.planningCall
    match p.result with
    | none => (ev1, 1)
    | some st1 =>
      let st2 := apply_fallbacks st1
      (ev1 ++ (List.range' 1 st2.parallel_agents.toNat).map REvent.workerDispatch
            ++ [REvent.synthesisCall], 0)
  else (ev0, 0)

/-- C1 counterexample: the first planning invocation reports failure status
    and of course yields no synthesis prompt, and no retry happens.  The
    claim requires a fatal stop before any dispatch regardless of invocation
    status, but the run proceeds: the planner returns the unchanged state
    (empty synthesis prompt) after a single call, workers are dispatched and
    the run exits with status 0. -/
theorem c1_counterexample :
    (run_planning_orchestrator (fun _ => { ok := false, text := [] }) (fun _ => none)
        ⟨4, [], []⟩ 0 false).result = some ⟨4, [], []⟩
    ∧ (run_planning_orchestrator (fun _ => { ok := false, text := [] }) (fun _ => none)
        ⟨4, [], []⟩ 0 false).calls = 1
    ∧ (run_model (fun _ => { ok := false, text := [] }) (fun _ => none) true false
        ⟨4, [], []⟩).2 = 0
    ∧ ((run_model (fun _ => { ok := false, text := [] }) (fun _ => none) true false
        ⟨4, [], []⟩).1.any isWorkerDispatch) = true := by
  refine ⟨by decide, by decide, by decide, by decide⟩

/-- C1 amended: the fatal stop requires the first planning invocation to
    report success.  When it does and neither its parse nor the parse after
    the single retry (performed only because the prompt is still absent, and
    applied only when the retry reports success) yields a synthesis prompt,
    the planner raises: the run performs exactly the two planning calls,
    dispatches no worker, and the process exits with status 1.  When the
    first invocation reports failure the orchestrator instead returns
    normally and the run proceeds to dispatch (see the counterexample). -/
theorem c1_amended (gen : Nat → GenResult) (loads : Str → Option PyVal)
    (ws : Bool) (st : SessionState)
    (h1 : (gen 0).ok = true)
    (h2 : (parse_session_output loads st (gen 0).text).synthesis_prompt = [])
    (h3 : (gen 1).ok = true →
        (parse_session_output loads (parse_session_output loads st (gen 0).text)
          (gen 1).text).synthesis_prompt = []) :
    run_model gen loads true ws st
      = ([REvent.mkdirRoot, REvent.mkdirAssistants, REvent.planningCall,
          REvent.planningCall], 1) := by
  have hplan : run_planning_orchestrator gen loads st 0 ws
      = { result := none, calls := 2, cleanup_attempted := !ws } := by
    unfold run_planning_orchestrator
    simp only [Nat.zero_add, h1, if_true]
    rw [if_pos h2]
    cases hok : (gen 1).ok with
    | true =>
      simp only [if_true]
      rw [if_pos (h3 hok)]
    | false =>
      simp only [Bool.false_eq_true, if_false]
      rw [if_pos h2]
  unfold run_model
  simp only [if_true]
  rw [hplan]
  rfl

/-- Witness for the amended C1: a successful planner that emits no tagged
    blocks at all leads to the fatal exit with no dispatch. -/
theorem c1_amended_witness :
    run_model (fun _ => { ok := true, text := [] }) (fun _ => none) true false ⟨4, [], []⟩
      = ([REvent.mkdirRoot, REvent.mkdirAssistants, REvent.planningCall,
          REvent.planningCall], 1) :=
  c1_amended (fun _ => { ok := true, text := [] }) (fun _ => none) false ⟨4, [], []⟩
    rfl (by decide) (fun _ => by decide)

/-- C4 amended: with the external binary absent the run returns before any
    planning call or worker dispatch - but it returns normally, so the
    process exit status is 0, not non-zero; and the output root together with
    its assistants subdirectory has already been created by
    setup_directories before the probe. -/
theorem c4_amended (gen : Nat → GenResult) (loads : Str → Option PyVal)
    (ws : Bool) (st : SessionState) :
    run_model gen loads false ws st = ([REvent.mkdirRoot, REvent.mkdirAssistants], 0) := rfl

/-- C4 counterexample: with the binary absent the exit status is 0 (the
    claim requires non-zero) and the assistants subdirectory below the output
    root has already been created (the claim requires no content beyond the
    root); no planning call and no dispatch occur. -/
theorem c4_counterexample :
    (run_model (fun _ => { ok := true, text := [] }) (fun _ => none) false false
        ⟨4, [], []⟩).2 = 0
    ∧ REvent.mkdirAssistants ∈ (run_model (fun _ => { ok := true, text := [] })
        (fun _ => none) false false ⟨4, [], []⟩).1
    ∧ ((run_model (fun _ => { ok := true, text := [] }) (fun _ => none) false false
        ⟨4, [], []⟩).1.any isWorkerDispatch) = false
    ∧ REvent.planningCall ∉ (run_model (fun _ => { ok := true, text := [] })
        (fun _ => none) false false ⟨4, [], []⟩).1 := by
  refine ⟨by decide, by decide, by decide, by decide⟩

-- Unfolding equations for the worker task model.

lemma run_assistant_eq_empty (gen : Nat → GenResult) (k : Nat) (ws : Bool)
    (tid : Nat) (ef : Str) (ra : Nat) (hc : pyStrip (gen k).text = []) :
    run_assistant_with_retry gen k ws tid false ef ra
      = WorkerExit.completed
          { attempts := 2
            call_dirs := [if ws then Dir.working else Dir.scratch tid,
                          if ws then Dir.working else Dir.scratch tid]
            sleeps := [1]
            final_output :=
              if (gen (k + 1)).ok then (gen (k + 1)).text
              else (gen (k + 1)).text ++ trailerText ra ef
            trailer_appended := !(gen (k + 1)).ok
            tmp_created := !ws
            tmp_removed := !ws } := by
  unfold run_assistant_with_retry
  simp only
  rw [if_pos hc, if_neg (show ¬(false = true) by simp)]

lemma run_assistant_eq_nonempty (gen : Nat → GenResult) (k : Nat) (ws : Bool)
    (tid : Nat) (intr : Bool) (ef : Str) (ra : Nat)
    (hc : ¬(pyStrip (gen k).text = [])) :
    run_assistant_with_retry gen k ws tid intr ef ra
      = WorkerExit.completed
          { attempts := 1
            call_dirs := [if ws then Dir.working else Dir.scratch tid]
            sleeps := []
            final_output :=
              if (gen k).ok then (gen k).text else (gen k).text ++ trailerText ra ef
            trailer_appended := !(gen k).ok
            tmp_created := !ws
            tmp_removed := !ws } := by
  unfold run_assistant_with_retry
  simp only
  rw [if_neg hc]

lemma run_assistant_eq_interrupted (gen : Nat → GenResult) (k : Nat) (ws : Bool)
    (tid : Nat) (ef : Str) (ra : Nat) (hc : pyStrip (gen k).text = []) :
    run_assistant_with_retry gen k ws tid true ef ra
      = WorkerExit.interrupted (!ws) false := by
  unfold run_assistant_with_retry
  simp only
  rw [if_pos hc]
  simp

lemma findOcc_isSome_of_occurs (pat s : Str) (i : Nat)
    (h : occursAtB pat s i = true) : (findOcc pat s).isSome = true := by
  cases hf : findOcc pat s with
  | none =>
    have := (findOcc_eq_none_iff pat s).mp hf i
    rw [h] at this
    exact absurd this (by simp)
  | some m => rfl

lemma containsTok_of_suffix (s a p : Str) (hs : s = a ++ p) :
    containsTok s p = true := by
  subst hs
  apply findOcc_isSome_of_occurs p (a ++ p) a.length
  unfold occursAtB
  rw [List.drop_left]
  exact List.isPrefixOf_iff_prefix.mpr List.prefix_rfl

/-- C3 counterexample: both attempts exit with status 0 but produce only
    whitespace.  The retry happens, the output is still empty after it, yet
    no diagnostic trailer is appended because the trailer depends on the exit
    status of the last attempt, not on the output being empty.  The claim
    that a still-empty output is treated as a capability invocation error is
    therefore false. -/
theorem c3_counterexample :
    pyStrip ((" ").data) = []
    ∧ run_assistant_with_retry (fun _ => { ok := true, text := (" ").data }) 0 false 0 false
        ("err.log").data 1
      = WorkerExit.completed
          { attempts := 2, call_dirs := [Dir.scratch 0, Dir.scratch 0], sleeps := [1],
            final_output := (" ").data, trailer_appended := false,
            tmp_created := true, tmp_removed := true } := by
  refine ⟨by decide, by decide⟩

/-- C3 amended: a whitespace-only first output triggers exactly one retry
    (never zero, never two) after the one-second delay, in the same execution
    directory; a nonempty first output triggers none.  The diagnostic trailer
    referencing the error log is appended exactly when the final attempt
    reported failure status - a still-empty output whose last attempt exited
    successfully receives no trailer. -/
theorem c3_amended (gen : Nat → GenResult) (k : Nat) (ws : Bool) (tid : Nat)
    (ef : Str) (ra : Nat) :
    (pyStrip (gen k).text = [] →
      ∃ o : WorkerOutcome,
        run_assistant_with_retry gen k ws tid false ef ra = WorkerExit.completed o
        ∧ o.attempts = 2
        ∧ o.sleeps = [1]
        ∧ (∃ d : Dir, o.call_dirs = [d, d])
        ∧ o.trailer_appended = !(gen (k + 1)).ok
        ∧ (o.trailer_appended = true → containsTok o.final_output ef = true))
    ∧ (pyStrip (gen k).text ≠ [] →
      ∃ o : WorkerOutcome,
        run_assistant_with_retry gen k ws tid false ef ra = WorkerExit.completed o
        ∧ o.attempts = 1
        ∧ o.sleeps = []
        ∧ o.trailer_appended = !(gen k).ok
        ∧ (o.trailer_appended = true → containsTok o.final_output ef = true)) := by
  constructor
  · intro hc
    refine ⟨_, run_assistant_eq_empty gen k ws tid ef ra hc, rfl, rfl,
      ⟨if ws then Dir.working else Dir.scratch tid, rfl⟩, rfl, ?_⟩
    intro htr
    simp only at htr ⊢
    cases hok : (gen (k + 1)).ok with
    | true => rw [hok] at htr; exact absurd htr (by simp)
    | false =>
      rw [if_neg (show ¬(false = true) by simp)]
      apply containsTok_of_suffix _
        ((gen (k + 1)).text ++ (("\nRA-").data ++ Nat.toDigits 10 ra
          ++ (": cursor-agent failed. See ").data))
      unfold trailerText
      simp [List.append_assoc]
  · intro hc
    refine ⟨_, run_assistant_eq_nonempty gen k ws tid false ef ra hc, rfl, rfl, rfl, ?_⟩
    intro htr
    simp only at htr ⊢
    cases hok : (gen k).ok with
    | true => rw [hok] at htr; exact absurd htr (by simp)
    | false =>
      rw [if_neg (show ¬(false = true) by simp)]
      apply containsTok_of_suffix _
        ((gen k).text ++ (("\nRA-").data ++ Nat.toDigits 10 ra
          ++ (": cursor-agent failed. See ").data))
      unfold trailerText
      simp [List.append_assoc]

/-- Witness for the amended C3: a failing empty first attempt is retried
    once and, with the retry also failing, the trailer naming the error log
    is appended. -/
theorem c3_amended_witness :
    ∃ o : WorkerOutcome,
      run_assistant_with_retry (fun _ => { ok := false, text := [] }) 0 false 0 false
        ("e.log").data 1 = WorkerExit.completed o
      ∧ o.attempts = 2
      ∧ o.sleeps = [1]
      ∧ (∃ d : Dir, o.call_dirs = [d, d])
      ∧ o.trailer_appended = true
      ∧ (o.trailer_appended = true → containsTok o.final_output ("e.log").data = true) :=
  (c3_amended (fun _ => { ok := false, text := [] }) 0 false 0 ("e.log").data 1).1
    (by decide)

/-- C9 counterexample: a worker whose first attempt yields empty output and
    which is cancelled during the retry delay exits with its scratch
    directory created but not removed - the removal is straight-line code at
    the end of the task body, not a finally block, so this exit path skips
    it.  The claim of removal on every exit path is therefore false. -/
theorem c9_counterexample :
    run_assistant_with_retry (fun _ => { ok := true, text := [] }) 0 false 0 true
      ("e").data 1 = WorkerExit.interrupted true false := by
  decide

/-- C9 amended: a worker task that runs to normal completion (success or
    failure) does attempt removal of the scratch directory it created, but an
    exception raised mid-task - such as a cancellation during the retry
    delay - leaves the directory in place; the planning task, whose cleanup
    sits in a finally block, attempts removal on every path including the
    fatal-error path.  (Removal itself is wrapped in an exception-swallowing
    handler in all cases, so even where reached it is an attempt, not a
    guarantee.) -/
theorem c9_amended :
    (∀ (gen : Nat → GenResult) (k tid : Nat) (ef : Str) (ra : Nat) (o : WorkerOutcome),
        run_assistant_with_retry gen k false tid false ef ra = WorkerExit.completed o →
        o.tmp_created = true ∧ o.tmp_removed = true)
    ∧ (∀ (gen : Nat → GenResult) (k tid : Nat) (ef : Str) (ra : Nat),
        pyStrip (gen k).text = [] →
        run_assistant_with_retry gen k false tid true ef ra
          = WorkerExit.interrupted true false)
    ∧ (∀ (gen : Nat → GenResult) (loads : Str → Option PyVal) (st : SessionState) (k : Nat),
        (run_planning_orchestrator gen loads st k false).cleanup_attempted = true) := by
  refine ⟨?_, ?_, ?_⟩
  · intro gen k tid ef ra o h
    by_cases hc : pyStrip (gen k).text = []
    · rw [run_assistant_eq_empty gen k false tid ef ra hc] at h
      cases h
      exact ⟨rfl, rfl⟩
    · rw [run_assistant_eq_nonempty gen k false tid false ef ra hc] at h
      cases h
      exact ⟨rfl, rfl⟩
  · intro gen k tid ef ra hc
    exact run_assistant_eq_interrupted gen k false tid ef ra hc
  · intro gen loads st k
    unfold run_planning_orchestrator
    simp only
    repeat' split
    all_goals rfl

/-- Witness for the amended C9: a concrete normally-completing worker with a
    scratch directory attempts its removal. -/
theorem c9_amended_witness :
    (⟨1, [Dir.scratch 0], [], ("x").data, false, true, true⟩ : WorkerOutcome).tmp_created = true
    ∧ (⟨1, [Dir.scratch 0], [], ("x").data, false, true, true⟩ : WorkerOutcome).tmp_removed = true :=
  c9_amended.1 (fun _ => { ok := true, text := ("x").data }) 0 0 ("e").data 1
    ⟨1, [Dir.scratch 0], [], ("x").data, false, true, true⟩ (by decide)

-- Synthesis-input construction (CCHeavy._run_synthesis, src/ccheavy.py
-- lines 324-371).

/-- Section-opening delimiter written for worker i (line 337). -/
def beginMarker (i : Nat) : Str :=
  ("\n===== BEGIN RA-").data ++ Nat.toDigits 10 i ++ (" =====\n").data

/-- Section-closing delimiter written for worker i (line 348). -/
def endMarker (i : Nat) : Str :=
  ("\n===== END RA-").data ++ Nat.toDigits 10 i ++ (" =====\n\n").data

/-- Placeholder written when the findings file is unreadable (line 346). -/
def notFoundLine (i : Nat) : Str :=
  ("RA-").data ++ Nat.toDigits 10 i ++ (" output not found").data

/-- Built-in default framing used when no synthesis prompt was provided
    (lines 331-334). -/
def defaultSynthHeader (fmt : Str) : Str :=
  ("You are a senior analyst. Synthesize the following assistant reports into a single comprehensive ").data
    ++ fmt
    ++ (" analysis with an executive summary, key findings, areas of agreement/disagreement, and recommended next steps. Cite with inline markdown links.\n\n").data

/-- Document header: the session synthesis prompt when nonempty, else the
    default framing (lines 329-334). -/
def synthHeader (sp fmt : Str) : Str :=
  if sp ≠ [] then sp ++ ("\n\n").data else defaultSynthHeader fmt

/-- Body of worker section i: the findings-file content when readable, the
    placeholder line otherwise (lines 339-346).  readF is the filesystem
    oracle mapping a worker index to the content of its findings file. -/
def sectionBody (readF : Nat → Option Str) (i : Nat) : Str :=
  match readF i with
  | some c => c
  | none => notFoundLine i

/-- Model of the synthesis-input document written by _run_synthesis (lines
    328-348): the header followed, for i in range(1, parallel_agents + 1), by
    the three sequential writes of section i, folded left as the file grows. -/
def synthesis_input (sp fmt : Str) (n : Nat) (readF : Nat → Option Str) : Str :=
  (List.range' 1 n).foldl
    (fun acc i => ((acc ++ beginMarker i) ++ sectionBody readF i) ++ endMarker i)
    (synthHeader sp fmt)

/-- Modelled from the spec: one worker section, bounded by its matching
    begin and end delimiter pair keyed by the worker index, containing the
    worker output or the explicit placeholder line when the artifact is
    unreadable. -/
def specWorkerSection (readF : Nat → Option Str) (i : Nat) : Str :=
  beginMarker i ++ (sectionBody readF i ++ endMarker i)

/-- Modelled from the spec: the synthesis input is the header followed by
    exactly the worker sections for indices 1..n in ascending order. -/
def specSynthesisInput (sp fmt : Str) (n : Nat) (readF : Nat → Option Str) : Str :=
  synthHeader sp fmt ++ ((List.range' 1 n).map (specWorkerSection readF)).flatten

lemma foldl_append_eq_join (f : Nat → Str) :
    ∀ (l : List Nat) (a : Str),
      l.foldl (fun acc i => acc ++ f i) a = a ++ (l.map f).flatten := by
  intro l
  induction l with
  | nil => intro a; simp
  | cons x t ih =>
    intro a
    simp only [List.foldl_cons, List.map_cons, List.flatten_cons, ih, List.append_assoc]

/-- C8: for every assistant count n in 2..8 and every readability oracle,
    the synthesis-input document written by the code equals the header
    followed by exactly the n worker sections in ascending index order
    1..n, each bounded by its matching begin and end delimiter pair keyed by
    its index, with an unreadable worker output represented by the explicit
    placeholder line - regardless of individual worker success or failure,
    which only changes the section bodies readF yields. -/
theorem c8_synthesis_sections (sp fmt : Str) (n : Nat) (readF : Nat → Option Str)
    (h2 : 2 ≤ n) (h8 : n ≤ 8) :
    synthesis_input sp fmt n readF = specSynthesisInput sp fmt n readF := by
  unfold synthesis_input specSynthesisInput
  have hfun : (fun (acc : Str) (i : Nat) =>
        ((acc ++ beginMarker i) ++ sectionBody readF i) ++ endMarker i)
      = fun (acc : Str) (i : Nat) => acc ++ specWorkerSection readF i := by
    funext acc i
    unfold specWorkerSection
    simp [List.append_assoc]
  rw [hfun, foldl_append_eq_join]

/-- Witness for C8 at n = 3 with the second worker output unreadable. -/
theorem c8_witness :
    synthesis_input ("S").data ("markdown").data 3
        (fun i => if i = 2 then none else some (("ok").data))
      = specSynthesisInput ("S").data ("markdown").data 3
        (fun i => if i = 2 then none else some (("ok").data)) :=
  c8_synthesis_sections ("S").data ("markdown").data 3
    (fun i => if i = 2 then none else some (("ok").data)) (by decide) (by decide)
